import Mathlib

/-!
Shallow embedding of the RAG store of `services/ai-backend/rag_service.py`:
the document store (a Python dict, modelled as an insertion-ordered
association list), the chunker `_chunk_text`, ingestion (`ingest_file`,
`add_text_to_index`), keyword retrieval (`search_context`), and the JSON
persistence of the store (`_save_store` / `_load_store`).

Python strings are modelled as Lean `String` (with `List Char` data);
Python's ASCII-relevant `str.lower` is modelled by `Char.toLower`.
The external `aergus.validate_token` safety gate is not part of the
repository, so `search_context` takes the validator as a parameter.
-/

/-- A document entry of the vector store, mirroring the dict literal built in
`RAGService.ingest_file` (fields `filename`, `course_id`, `status`,
`mock_embedding`, `text_content`, `chunks`).  The placeholder float vector is
modelled with rationals. -/
structure Doc where
  filename : String
  course_id : String
  status : String
  mock_embedding : List ℚ
  text_content : String
  chunks : List String
deriving DecidableEq, Repr

/-- The vector store: a Python dict from document id to document, modelled as
an insertion-ordered association list (Python dicts preserve insertion order,
and overwriting a key keeps its position). -/
abbrev Store := List (String × Doc)

/-- Dict lookup `store[key]` (as `key in store` / `store.get`). -/
def storeGet : Store → String → Option Doc
  | [], _ => none
  | (k, v) :: rest, key => if k = key then some v else storeGet rest key

/-- Dict assignment `store[key] = doc`: overwrite in place if the key is
present, append otherwise. -/
def storeSet : Store → String → Doc → Store
  | [], key, doc => [(key, doc)]
  | (k, v) :: rest, key, doc =>
    if k = key then (key, doc) :: rest else (k, v) :: storeSet rest key doc

/-- `doc_id = f"{course_id}_{file.filename}"` (rag_service.py lines 46 and 64). -/
def docId (course_id filename : String) : String := course_id ++ "_" ++ filename

/-- The placeholder `[0.1, 0.2, 0.3]` embedding vector of `ingest_file`. -/
def mockEmbedding : List ℚ := [0.1, 0.2, 0.3]

/-- The loop body of `RAGService._chunk_text`:
`while start < len(text): chunks.append(text[start:start+chunk_size]); start += chunk_size - overlap`.
The loop advances by `step = chunk_size - overlap` characters per iteration, so
`fuel = length of the text` bounds the number of iterations whenever
`step ≥ 1`; the fuel-exhausted case is unreachable then.  (With
`overlap ≥ chunk_size` the Python loop never terminates — the spec calls this
a fatal configuration error — so the model is only meaningful for
`overlap < chunk_size`.) -/
def chunkLoop (chunk_size step : Nat) : Nat → List Char → List (List Char)
  | _, [] => []
  | 0, _ :: _ => []
  | fuel + 1, c :: rest =>
    ((c :: rest).take chunk_size) :: chunkLoop chunk_size step fuel ((c :: rest).drop step)

/-- `RAGService._chunk_text(text, chunk_size, overlap)` with explicit
parameters. -/
def chunkTextWith (text : String) (chunk_size overlap : Nat) : List String :=
  (chunkLoop chunk_size (chunk_size - overlap) text.data.length text.data).map String.mk

/-- `RAGService._chunk_text(text)` at its default parameters
`chunk_size=1000, overlap=200`. -/
def chunk_text (text : String) : List String := chunkTextWith text 1000 200

/-- `RAGService.ingest_file` (the store mutation it performs; the raw-file
write to the upload directory is I/O outside the model): registers the
document under `doc_id` with a fresh entry whose status is `"indexed"`,
empty `text_content` and empty `chunks`. -/
def ingest_file (store : Store) (course_id filename : String) : Store :=
  storeSet store (docId course_id filename)
    { filename := filename
      course_id := course_id
      status := "indexed"
      mock_embedding := mockEmbedding
      text_content := ""
      chunks := [] }

/-- `RAGService.add_text_to_index`: if `doc_id` is present, store the chunked
text and the raw text; otherwise do nothing (the function has no else branch
and raises no error). -/
def add_text_to_index (store : Store) (course_id filename text : String) : Store :=
  match storeGet store (docId course_id filename) with
  | some doc =>
    storeSet store (docId course_id filename)
      { doc with chunks := chunk_text text, text_content := text }
  | none => store

/- ------------------------------------------------------------------ -/
/- Retrieval: `RAGService.search_context`                              -/
/- ------------------------------------------------------------------ -/

/-- The whitespace characters Python's `str.split()` splits on
(space, tab, newline, carriage return, vertical tab, form feed). -/
def isPySpace (c : Char) : Bool :=
  c = ' ' || c = '\t' || c = '\n' || c = '\r' || c = '\x0b' || c = '\x0c'

/-- Python `s.split()` with no separator: the maximal runs of
non-whitespace characters, with no empty fields. -/
def splitWs (s : List Char) : List (List Char) :=
  (s.splitOnP isPySpace).filter (fun w => w ≠ [])

/-- The `STOP_WORDS` set of `search_context` (line 100). -/
def STOP_WORDS : List String :=
  ["what", "when", "where", "which", "who", "whom", "this", "that", "these",
   "those", "am", "is", "are", "was", "were", "be", "been", "being", "have",
   "has", "had", "having", "do", "does", "did", "doing", "a", "an", "the",
   "and", "but", "if", "or", "because", "as", "until", "while", "of", "at",
   "by", "for", "with", "about", "against", "between", "into", "through",
   "during", "before", "after", "above", "below", "to", "from", "up", "down",
   "in", "out", "on", "off", "over", "under", "again", "further", "then",
   "once", "here", "there", "all", "any", "both", "each", "few", "more",
   "most", "other", "some", "such", "no", "nor", "not", "only", "own", "same",
   "so", "than", "too", "very", "s", "t", "can", "will", "just", "don",
   "should", "now"]

/-- Lines 103-108 of `search_context`:
`query_terms = [t.lower() for t in query.replace("?", "").replace(".", "").split()]`,
`filtered_terms = [t for t in query_terms if t not in STOP_WORDS and len(t) >= 2]`,
falling back to `query_terms` when everything was filtered out. -/
def queryTerms (query : String) : List String :=
  let query_terms :=
    (splitWs ((query.data.filter (fun c => c ≠ '?')).filter (fun c => c ≠ '.'))).map
      (fun w => String.mk (w.map Char.toLower))
  let filtered_terms :=
    query_terms.filter (fun t => !STOP_WORDS.contains t && decide (2 ≤ t.length))
  if filtered_terms = [] then query_terms else filtered_terms

/-- Python `s.count(pat)`: the number of non-overlapping occurrences of
`pat` in `s`, scanning left to right (after a match the scan resumes past
it).  `fuel = length of s` bounds the number of scan steps; the empty
pattern yields `len(s) + 1` as in Python. -/
def countOccsGo (pat : List Char) : Nat → List Char → Nat
  | _, [] => if pat = [] then 1 else 0
  | 0, _ :: _ => 0
  | fuel + 1, c :: rest =>
    if pat = [] then (c :: rest).length + 1
    else if pat.isPrefixOf (c :: rest) then
      1 + countOccsGo pat fuel ((c :: rest).drop pat.length)
    else countOccsGo pat fuel rest

/-- Python `s.count(pat)` (see `countOccsGo`). -/
def countOccs (pat s : List Char) : Nat := countOccsGo pat s.length s

/-- The scoring loop of `search_context` (lines 116-123) for one chunk:
`for term in filtered_terms: count = lower_chunk.count(term); if count > 0: score += count * 2`. -/
def chunkScore (terms : List String) (lower_chunk : List Char) : Nat :=
  terms.foldl
    (fun score term =>
      let count := countOccs term.data lower_chunk
      if 0 < count then score + count * 2 else score)
    0

/-- One document's contribution to `results` (lines 114-126): each chunk
with positive score yields `(score, f"From {doc['filename']}:\n{chunk}")`,
in chunk order. -/
def docEntries (terms : List String) (doc : Doc) : List (Nat × String) :=
  doc.chunks.filterMap (fun chunk =>
    let score := chunkScore terms (chunk.data.map Char.toLower)
    if 0 < score then some (score, "From " ++ doc.filename ++ ":\n" ++ chunk)
    else none)

/-- The skip condition of the document loop (line 111):
`if course_id and doc["course_id"] != course_id: continue` — a document is
skipped exactly when the scope is present and truthy (non-empty) and the
document's course differs. -/
def scopeSkip (course_id : Option String) (doc : Doc) : Bool :=
  match course_id with
  | none => false
  | some c => decide (c ≠ "") && decide (doc.course_id ≠ c)

/-- The document loop of `search_context` (lines 110-126): collect the
scored entries of every non-skipped document, in store (insertion) order. -/
def scanResults (terms : List String) (course_id : Option String) : Store → List (Nat × String)
  | [] => []
  | (_, doc) :: rest =>
    if scopeSkip course_id doc then scanResults terms course_id rest
    else docEntries terms doc ++ scanResults terms course_id rest

/-- The ordering used by `results.sort(key=lambda x: x[0], reverse=True)`:
scores descending. -/
def scoreGE (a b : Nat × String) : Prop := b.1 ≤ a.1

instance : DecidableRel scoreGE := fun a b => Nat.decLe b.1 a.1

instance : IsTotal (Nat × String) scoreGE := ⟨fun a b => Nat.le_total b.1 a.1⟩

instance : IsTrans (Nat × String) scoreGE :=
  ⟨fun _ _ _ h1 h2 => Nat.le_trans h2 h1⟩

/-- `results.sort(key=lambda x: x[0], reverse=True)`: a stable sort by
score descending (Python's sort is stable; so is insertion sort). -/
def sortResults (results : List (Nat × String)) : List (Nat × String) :=
  List.insertionSort scoreGE results

/-- `RAGService.search_context(query, token, course_id)`.  The external
`aergus.validate_token` gate is passed in as `validate`; `course_id = none`
models Python's default `None`. -/
def search_context {τ : Type} (validate : τ → Bool) (store : Store)
    (query : String) (token : τ) (course_id : Option String) : String :=
  if !validate token then ""
  else
    let results := scanResults (queryTerms query) course_id store
    let top_chunks := ((sortResults results).take 3).map Prod.snd
    if top_chunks = [] then "" else String.intercalate "\n\n---\n\n" top_chunks

/-- Refinement model of the SPEC's `attach_text` contract (spec §4.2):
"requires a prior `register` call for that key (fails with `NotFoundError`
otherwise); runs the Chunker over `text`, stores the resulting chunk list and
raw_text, sets `status = indexed`".  Written from the spec's words, to be
compared with `add_text_to_index` above, which is written from the source. -/
def attachTextSpec (store : Store) (course_id filename text : String) :
    Except String Store :=
  match storeGet store (docId course_id filename) with
  | none => Except.error "NotFoundError"
  | some doc =>
    Except.ok (storeSet store (docId course_id filename)
      { doc with chunks := chunk_text text, text_content := text, status := "indexed" })

/- ------------------------------------------------------------------ -/
/- Persistence: `_save_store` / `_load_store` (json.dump / json.load)  -/
/- ------------------------------------------------------------------ -/

/-- JSON values, the serialization format of `json.dump` / `json.load`.
Numbers are modelled as rationals. -/
inductive Json where
  | null : Json
  | bool : Bool → Json
  | num : ℚ → Json
  | str : String → Json
  | arr : List Json → Json
  | obj : List (String × Json) → Json

/-- How `json.dump` serializes one document dict of the store. -/
def encodeDoc (d : Doc) : Json :=
  Json.obj
    [("filename", Json.str d.filename),
     ("course_id", Json.str d.course_id),
     ("status", Json.str d.status),
     ("mock_embedding", Json.arr (d.mock_embedding.map Json.num)),
     ("text_content", Json.str d.text_content),
     ("chunks", Json.arr (d.chunks.map Json.str))]

/-- `RAGService._save_store`: `json.dump(self.vector_store, f)` — the store
file holds the JSON serialization of the whole dict, wholesale-replaced on
every save. -/
def save_store (store : Store) : Json :=
  Json.obj (store.map (fun kv => (kv.1, encodeDoc kv.2)))

/-- Read a JSON string. -/
def decodeStr : Json → Option String
  | Json.str s => some s
  | _ => none

/-- Read a JSON number. -/
def decodeNum : Json → Option ℚ
  | Json.num q => some q
  | _ => none

/-- Decode each element of a JSON array, failing if any element fails. -/
def decodeList {α : Type} (dec : Json → Option α) : List Json → Option (List α)
  | [] => some []
  | j :: rest =>
    match dec j with
    | some a => (decodeList dec rest).map (fun as => a :: as)
    | none => none

/-- Decode one document dict serialized by `encodeDoc`. -/
def decodeDoc : Json → Option Doc
  | Json.obj [("filename", f), ("course_id", c), ("status", st),
              ("mock_embedding", me), ("text_content", tc), ("chunks", ch)] =>
    match decodeStr f, decodeStr c, decodeStr st with
    | some f, some c, some st =>
      match decodeNum' me, decodeStr tc, decodeStr' ch with
      | some me, some tc, some ch =>
        some { filename := f, course_id := c, status := st,
               mock_embedding := me, text_content := tc, chunks := ch }
      | _, _, _ => none
    | _, _, _ => none
  | _ => none
where
  decodeNum' : Json → Option (List ℚ)
    | Json.arr xs => decodeList decodeNum xs
    | _ => none
  decodeStr' : Json → Option (List String)
    | Json.arr xs => decodeList decodeStr xs
    | _ => none

/-- Decode the entries of the serialized store dict. -/
def decodeEntries : List (String × Json) → Option Store
  | [] => some []
  | (k, j) :: rest =>
    match decodeDoc j with
    | some d => (decodeEntries rest).map (fun s => (k, d) :: s)
    | none => none

/-- `RAGService._load_store`: `json.load(f)` of the store file written by
`_save_store`, read back into the typed store. -/
def load_store : Json → Option Store
  | Json.obj kvs => decodeEntries kvs
  | _ => none

/- ------------------------------------------------------------------ -/
/- Chunker lemmas                                                      -/
/- ------------------------------------------------------------------ -/

theorem chunkLoop_nil (cs step fuel : Nat) : chunkLoop cs step fuel [] = [] := by
  cases fuel <;> rfl

/-- Characterization of the chunker loop: with enough fuel, the `i`-th chunk
is the `cs`-character window starting at offset `step * i`, present exactly
when that offset lies inside the text. -/
theorem chunkLoop_getElem (cs step : Nat) (hstep : 0 < step) :
    ∀ (fuel : Nat) (s : List Char) (i : Nat), s.length ≤ fuel →
      (chunkLoop cs step fuel s)[i]? =
        if step * i < s.length then some ((s.drop (step * i)).take cs) else none := by
  intro fuel
  induction fuel with
  | zero =>
    intro s i h
    have hs : s = [] := List.eq_nil_of_length_eq_zero (Nat.le_zero.mp h)
    subst hs
    simp [chunkLoop_nil]
  | succ f ih =>
    intro s i h
    cases s with
    | nil => simp [chunkLoop_nil]
    | cons c rest =>
      cases i with
      | zero =>
        have : step * 0 = 0 := Nat.mul_zero step
        simp [chunkLoop, this]
      | succ j =>
        have hlen : ((c :: rest).drop step).length ≤ f := by
          simp only [List.length_drop]
          simp only [List.length_cons] at h ⊢
          omega
        have lhs : chunkLoop cs step (f + 1) (c :: rest) =
            ((c :: rest).take cs) :: chunkLoop cs step f ((c :: rest).drop step) := by
          simp only [chunkLoop]
        rw [lhs, List.getElem?_cons_succ, ih _ j hlen, List.drop_drop, List.length_drop]
        have hm : step + step * j = step * (j + 1) := by ring
        rw [hm]
        have hcond : (step * j < (c :: rest).length - step) ↔
            (step * (j + 1) < (c :: rest).length) := by
          rw [Nat.mul_succ]
          omega
        by_cases hc : step * (j + 1) < (c :: rest).length
        · rw [if_pos (hcond.mpr hc), if_pos hc]
        · rw [if_neg (fun hx => hc (hcond.mp hx)), if_neg hc]

/-- The chunker loop at step 800 produces `⌈L / 800⌉` chunks. -/
theorem chunkLoop_length800 (cs : Nat) :
    ∀ (fuel : Nat) (s : List Char), s.length ≤ fuel →
      (chunkLoop cs 800 fuel s).length = (s.length + 799) / 800 := by
  intro fuel
  induction fuel with
  | zero =>
    intro s h
    have hs : s = [] := List.eq_nil_of_length_eq_zero (Nat.le_zero.mp h)
    subst hs
    simp [chunkLoop_nil]
  | succ f ih =>
    intro s h
    cases s with
    | nil => simp [chunkLoop_nil]
    | cons c rest =>
      have hlen : ((c :: rest).drop 800).length ≤ f := by
        simp only [List.length_drop]
        simp only [List.length_cons] at h ⊢
        omega
      have lhs : chunkLoop cs 800 (f + 1) (c :: rest) =
          ((c :: rest).take cs) :: chunkLoop cs 800 f ((c :: rest).drop 800) := by
        simp only [chunkLoop]
      rw [lhs, List.length_cons, ih _ hlen, List.length_drop]
      have hpos : 0 < (c :: rest).length := by simp
      omega

theorem String.length_eq_data_length (s : String) : s.length = s.data.length := rfl

/-- `_chunk_text` at the default parameters: the `i`-th chunk is the
1000-character substring starting at offset `800 * i`. -/
theorem chunk_text_getElem (t : String) (i : Nat) :
    (chunk_text t)[i]? =
      if 800 * i < t.length then
        some (String.mk ((t.data.drop (800 * i)).take 1000))
      else none := by
  show ((chunkLoop 1000 (1000 - 200) t.data.length t.data).map String.mk)[i]? = _
  rw [List.getElem?_map,
    chunkLoop_getElem 1000 (1000 - 200) (by norm_num) t.data.length t.data i (Nat.le_refl _)]
  rw [String.length_eq_data_length]
  by_cases hc : 800 * i < t.data.length
  · rw [if_pos hc, if_pos hc]
    rfl
  · rw [if_neg hc, if_neg hc]
    rfl

/-- `_chunk_text` at the default parameters produces `⌈L / 800⌉` chunks. -/
theorem chunk_text_length (t : String) :
    (chunk_text t).length = (t.length + 799) / 800 := by
  show ((chunkLoop 1000 (1000 - 200) t.data.length t.data).map String.mk).length = _
  rw [List.length_map,
    chunkLoop_length800 1000 t.data.length t.data (Nat.le_refl _)]
  rfl

/- ------------------------------------------------------------------ -/
/- Store lemmas                                                        -/
/- ------------------------------------------------------------------ -/

theorem storeGet_storeSet_self (s : Store) (k : String) (d : Doc) :
    storeGet (storeSet s k d) k = some d := by
  induction s with
  | nil => simp [storeSet, storeGet]
  | cons kv rest ih =>
    obtain ⟨k', v'⟩ := kv
    by_cases h : k' = k
    · simp [storeSet, storeGet, h]
    · simp [storeSet, storeGet, h, ih]

/- ------------------------------------------------------------------ -/
/- Scoring lemmas                                                      -/
/- ------------------------------------------------------------------ -/

theorem chunkScore_foldl (c : List Char) (terms : List String) :
    ∀ a : Nat,
      terms.foldl
        (fun score term =>
          let count := countOccs term.data c
          if 0 < count then score + count * 2 else score)
        a
      = a + 2 * (terms.map (fun t => countOccs t.data c)).sum := by
  induction terms with
  | nil => intro a; simp
  | cons t rest ih =>
    intro a
    simp only [List.foldl_cons, List.map_cons, List.sum_cons]
    rw [ih]
    by_cases h : 0 < countOccs t.data c
    · rw [if_pos h]; omega
    · rw [if_neg h]
      have : countOccs t.data c = 0 := Nat.eq_zero_of_not_pos h
      rw [this]
      omega

/-- The chunk score computed by the source loop is twice the sum, over the
terms, of the occurrence counts of the term in the chunk. -/
theorem chunkScore_eq (terms : List String) (c : List Char) :
    chunkScore terms c = 2 * (terms.map (fun t => countOccs t.data c)).sum := by
  have := chunkScore_foldl c terms 0
  simpa [chunkScore] using this

theorem chunkScore_nil (c : List Char) : chunkScore [] c = 0 := rfl

/-- Membership in one document's entry list: each entry is a
positively-scored chunk of the document, formatted with the filename. -/
theorem mem_docEntries {terms : List String} {d : Doc} {e : Nat × String}
    (h : e ∈ docEntries terms d) :
    0 < e.1 ∧ ∃ chunk ∈ d.chunks,
      e.1 = chunkScore terms (chunk.data.map Char.toLower) ∧
      e.2 = "From " ++ d.filename ++ ":\n" ++ chunk := by
  simp only [docEntries, List.mem_filterMap] at h
  obtain ⟨chunk, hmem, hsome⟩ := h
  by_cases hpos : 0 < chunkScore terms (chunk.data.map Char.toLower)
  · rw [if_pos hpos] at hsome
    obtain rfl := Option.some.inj hsome
    exact ⟨hpos, chunk, hmem, rfl, rfl⟩
  · rw [if_neg hpos] at hsome
    exact absurd hsome (by simp)

theorem docEntries_nil_terms (d : Doc) : docEntries [] d = [] := by
  simp [docEntries, chunkScore_nil]

/- ------------------------------------------------------------------ -/
/- Scan lemmas                                                         -/
/- ------------------------------------------------------------------ -/

/-- Every entry collected by the document loop comes from some document of
the store. -/
theorem mem_scanResults {terms : List String} {scope : Option String} :
    ∀ {store : Store} {e : Nat × String}, e ∈ scanResults terms scope store →
      ∃ kv ∈ store, e ∈ docEntries terms kv.2 := by
  intro store
  induction store with
  | nil => intro e h; simp [scanResults] at h
  | cons kv rest ih =>
    intro e h
    obtain ⟨k, d⟩ := kv
    by_cases hskip : scopeSkip scope d
    · rw [scanResults, if_pos hskip] at h
      obtain ⟨kv', hmem, hd⟩ := ih h
      exact ⟨kv', List.mem_cons_of_mem _ hmem, hd⟩
    · rw [scanResults, if_neg hskip] at h
      rcases List.mem_append.mp h with hl | hr
      · exact ⟨(k, d), List.mem_cons_self _ _, hl⟩
      · obtain ⟨kv', hmem, hd⟩ := ih hr
        exact ⟨kv', List.mem_cons_of_mem _ hmem, hd⟩

theorem scanResults_nil_terms (scope : Option String) (store : Store) :
    scanResults [] scope store = [] := by
  induction store with
  | nil => rfl
  | cons kv rest ih =>
    obtain ⟨k, d⟩ := kv
    rw [scanResults]
    by_cases hskip : scopeSkip scope d
    · rw [if_pos hskip]; exact ih
    · rw [if_neg hskip, docEntries_nil_terms, List.nil_append]; exact ih

/-- An empty-string scope and no scope produce the same skip decisions. -/
theorem scanResults_empty_scope (terms : List String) (store : Store) :
    scanResults terms (some "") store = scanResults terms none store := by
  induction store with
  | nil => rfl
  | cons kv rest ih =>
    obtain ⟨k, d⟩ := kv
    rw [scanResults, scanResults]
    have h1 : scopeSkip (some "") d = false := by simp [scopeSkip]
    have h2 : scopeSkip none d = false := rfl
    rw [h1, h2]
    simp only [Bool.false_eq_true, if_false]
    rw [ih]

/-- With a non-empty scope, documents of other courses contribute nothing:
the scan over the store equals the scan over the store restricted to the
scoped course. -/
theorem scanResults_filter_course (terms : List String) (A : String)
    (hA : A ≠ "") (store : Store) :
    scanResults terms (some A) store =
      scanResults terms (some A) (store.filter (fun kv => kv.2.course_id == A)) := by
  induction store with
  | nil => rfl
  | cons kv rest ih =>
    obtain ⟨k, d⟩ := kv
    by_cases hc : d.course_id = A
    · have hskip : scopeSkip (some A) d = false := by
        simp [scopeSkip, hc]
      have hkeep : ((k, d).2.course_id == A) = true := by
        simp [hc]
      rw [List.filter_cons, if_pos hkeep, scanResults, scanResults, hskip]
      simp only [Bool.false_eq_true, if_false]
      rw [ih]
    · have hskip : scopeSkip (some A) d = true := by
        simp [scopeSkip, hA, hc]
      have hdrop : ¬ (((k, d).2.course_id == A) = true) := by
        simp [hc]
      rw [List.filter_cons, if_neg hdrop, scanResults, hskip]
      simp only [if_true]
      exact ih

/-- With a non-empty scope under which no document of the store falls, the
scan is empty. -/
theorem scanResults_skip_all (terms : List String) (A : String) (hA : A ≠ "")
    (store : Store) (h : ∀ kv ∈ store, kv.2.course_id ≠ A) :
    scanResults terms (some A) store = [] := by
  induction store with
  | nil => rfl
  | cons kv rest ih =>
    obtain ⟨k, d⟩ := kv
    have hskip : scopeSkip (some A) d = true := by
      simp [scopeSkip, hA]
      exact h (k, d) (List.mem_cons_self _ _)
    rw [scanResults, hskip]
    simp only [if_true]
    exact ih (fun kv hkv => h kv (List.mem_cons_of_mem _ hkv))

/-- With no scope, the `course_id` fields play no role: renaming every
course leaves the scan unchanged. -/
theorem scanResults_course_map (terms : List String) (f : String → String)
    (store : Store) :
    scanResults terms none
        (store.map (fun kv => (kv.1, { kv.2 with course_id := f kv.2.course_id }))) =
      scanResults terms none store := by
  induction store with
  | nil => rfl
  | cons kv rest ih =>
    obtain ⟨k, d⟩ := kv
    rw [List.map_cons, scanResults, scanResults]
    have h1 : scopeSkip none { d with course_id := f d.course_id } = false := rfl
    have h2 : scopeSkip none d = false := rfl
    rw [h1, h2]
    simp only [Bool.false_eq_true, if_false]
    have hd : docEntries terms { d with course_id := f d.course_id } =
        docEntries terms d := by
      simp [docEntries]
    rw [hd, ih]

/- ------------------------------------------------------------------ -/
/- search_context unfolding                                            -/
/- ------------------------------------------------------------------ -/

theorem String.intercalate_nil (s : String) : String.intercalate s [] = "" := rfl

/-- With a valid token, `search_context` returns the join of the top three
entries of the stably sorted result list. -/
theorem search_context_valid {τ : Type} (validate : τ → Bool) (store : Store)
    (query : String) (token : τ) (scope : Option String)
    (hv : validate token = true) :
    search_context validate store query token scope =
      String.intercalate "\n\n---\n\n"
        (((sortResults (scanResults (queryTerms query) scope store)).take 3).map
          Prod.snd) := by
  rw [search_context, hv]
  simp only [Bool.not_true, Bool.false_eq_true, if_false]
  by_cases h :
      ((sortResults (scanResults (queryTerms query) scope store)).take 3).map
        Prod.snd = []
  · rw [if_pos h, h, String.intercalate_nil]
  · rw [if_neg h]

theorem search_context_invalid {τ : Type} (validate : τ → Bool) (store : Store)
    (query : String) (token : τ) (scope : Option String)
    (hv : validate token = false) :
    search_context validate store query token scope = "" := by
  rw [search_context, hv]
  rfl

/- ------------------------------------------------------------------ -/
/- JSON round-trip lemmas                                              -/
/- ------------------------------------------------------------------ -/

theorem decodeList_str (l : List String) :
    decodeList decodeStr (l.map Json.str) = some l := by
  induction l with
  | nil => rfl
  | cons a rest ih => simp [decodeList, decodeStr, ih]

theorem decodeList_num (l : List ℚ) :
    decodeList decodeNum (l.map Json.num) = some l := by
  induction l with
  | nil => rfl
  | cons a rest ih => simp [decodeList, decodeNum, ih]

theorem decodeDoc_encodeDoc (d : Doc) : decodeDoc (encodeDoc d) = some d := by
  obtain ⟨f, c, st, me, tc, ch⟩ := d
  simp [encodeDoc, decodeDoc, decodeStr, decodeDoc.decodeNum', decodeDoc.decodeStr',
    decodeList_str, decodeList_num]

theorem decodeEntries_save (store : Store) :
    decodeEntries (store.map (fun kv => (kv.1, encodeDoc kv.2))) = some store := by
  induction store with
  | nil => rfl
  | cons kv rest ih =>
    obtain ⟨k, d⟩ := kv
    simp [decodeEntries, decodeDoc_encodeDoc, ih]

/- ------------------------------------------------------------------ -/
/- docId lemmas                                                        -/
/- ------------------------------------------------------------------ -/

/-- Lists around a distinguished separator element that appears in neither
left part are uniquely decomposed. -/
theorem append_sep_inj {α : Type} [DecidableEq α] (sep : α) :
    ∀ (l1 l2 r1 r2 : List α), sep ∉ l1 → sep ∉ l2 →
      l1 ++ sep :: r1 = l2 ++ sep :: r2 → l1 = l2 ∧ r1 = r2 := by
  intro l1
  induction l1 with
  | nil =>
    intro l2 r1 r2 _ h2 heq
    cases l2 with
    | nil => simpa using heq
    | cons b l2' =>
      simp only [List.nil_append, List.cons_append, List.cons.injEq] at heq
      exact absurd (List.mem_cons_self b l2') (heq.1 ▸ h2)
  | cons a l1' ih =>
    intro l2 r1 r2 h1 h2 heq
    cases l2 with
    | nil =>
      simp only [List.cons_append, List.nil_append, List.cons.injEq] at heq
      exact absurd (List.mem_cons_self sep l1') (heq.1 ▸ h1)
    | cons b l2' =>
      simp only [List.cons_append, List.cons.injEq] at heq
      obtain ⟨rfl, heq'⟩ := heq
      have h1' : sep ∉ l1' := fun hx => h1 (List.mem_cons_of_mem _ hx)
      have h2' : sep ∉ l2' := fun hx => h2 (List.mem_cons_of_mem _ hx)
      obtain ⟨rfl, rfl⟩ := ih l2' r1 r2 h1' h2' heq'
      exact ⟨rfl, rfl⟩

theorem String.eq_of_data_eq {s t : String} (h : s.data = t.data) : s = t := by
  cases s
  cases t
  exact congrArg String.mk h

/- ------------------------------------------------------------------ -/
/- Claim theorems                                                      -/
/- ------------------------------------------------------------------ -/

/-- C1 (counterexample): at L = 2500 the chunker produces 4 chunks (starts
0, 800, 1600, 2400), while the claimed count
`ceil(max(0, L - overlap) / (chunk_size - overlap)) = ceil(2300 / 800)`
is 3 — so the claimed count formula and the claimed start-offset list
(0, 800, 1600) are both wrong at this input. -/
theorem C1_chunk_count_counterexample :
    (chunk_text (String.mk (List.replicate 2500 'a'))).length = 4 ∧
    (max 0 (2500 - 200) + ((1000 - 200) - 1)) / (1000 - 200) = 3 := by
  constructor
  · rw [chunk_text_length]
    have h : (String.mk (List.replicate 2500 'a')).length = 2500 := by
      rw [String.length_eq_data_length]
      show (List.replicate 2500 'a').length = 2500
      rw [List.length_replicate]
    rw [h]
  · norm_num

/-- C1 (amended): for every text of length L chunked with chunk_size=1000
and overlap=200, the chunks start at offsets 0, 800, 1600, ... (the i-th
chunk is the 1000-character window at offset 800·i, present exactly when
800·i < L), and the number of chunks is ceil(L / 800); the final chunk may
be shorter than chunk_size.  In particular for L = 2500 the start offsets
are 0, 800, 1600, 2400. -/
theorem chunk_text_layout (t : String) (i : Nat) :
    (chunk_text t).length = (t.length + 799) / 800 ∧
    (chunk_text t)[i]? =
      (if 800 * i < t.length then
        some (String.mk ((t.data.drop (800 * i)).take 1000))
      else none) :=
  ⟨chunk_text_length t, chunk_text_getElem t i⟩

/-- C3 (counterexample): calling `add_text_to_index` on a key that was never
registered does not fail with `NotFoundError`: the source function has no
error path at all and silently leaves the store unchanged, whereas the
spec's `attach_text` contract (modelled by `attachTextSpec`) demands a
`NotFoundError`. -/
theorem C3_attach_unregistered_counterexample :
    add_text_to_index [] "c1" "notes.txt" "hello" = [] ∧
    attachTextSpec [] "c1" "notes.txt" "hello" = Except.error "NotFoundError" := by
  constructor <;> rfl

/-- C3 (amended): for an unregistered key, `add_text_to_index` is a silent
no-op (no error is raised; the store is unchanged); for a registered key it
stores the chunked text and the raw text, leaving every other field —
including `status`, which registration already set to "indexed" —
unchanged. -/
theorem add_text_to_index_amended (store : Store) (course_id filename text : String) :
    (storeGet store (docId course_id filename) = none →
      add_text_to_index store course_id filename text = store) ∧
    (∀ d : Doc, storeGet store (docId course_id filename) = some d →
      storeGet (add_text_to_index store course_id filename text)
          (docId course_id filename) =
        some { d with chunks := chunk_text text, text_content := text }) := by
  constructor
  · intro h
    unfold add_text_to_index
    rw [h]
  · intro d h
    unfold add_text_to_index
    rw [h]
    exact storeGet_storeSet_self store _ _

theorem add_text_to_index_amended_witness :
    storeGet (add_text_to_index (ingest_file [] "c1" "n.txt") "c1" "n.txt" "hi")
        (docId "c1" "n.txt") =
      some { filename := "n.txt", course_id := "c1", status := "indexed",
             mock_embedding := mockEmbedding, text_content := "hi",
             chunks := chunk_text "hi" } :=
  (add_text_to_index_amended (ingest_file [] "c1" "n.txt") "c1" "n.txt" "hi").2
    { filename := "n.txt", course_id := "c1", status := "indexed",
      mock_embedding := mockEmbedding, text_content := "", chunks := [] }
    (storeGet_storeSet_self [] (docId "c1" "n.txt")
      { filename := "n.txt", course_id := "c1", status := "indexed",
        mock_embedding := mockEmbedding, text_content := "", chunks := [] })

/-- C4 (counterexample): immediately after registration (`ingest_file`) the
document's status is "indexed", not "registered" as the claim states — the
source sets `"status": "indexed"` at ingestion time, before any text is
attached. -/
theorem C4_register_status_counterexample :
    (storeGet (ingest_file [] "c1" "notes.txt") (docId "c1" "notes.txt")).map
        Doc.status = some "indexed" ∧
    ("indexed" : String) ≠ "registered" := by
  constructor
  · rw [show storeGet (ingest_file [] "c1" "notes.txt") (docId "c1" "notes.txt") =
        some { filename := "notes.txt", course_id := "c1", status := "indexed",
               mock_embedding := mockEmbedding, text_content := "", chunks := [] }
      from storeGet_storeSet_self [] _ _]
    rfl
  · decide

/-- C4 (amended): after every register (`ingest_file`) call, the entry under
the derived key has status "indexed" (not "registered"), an empty chunk
list, and empty raw text — whether the key was new or previously present. -/
theorem ingest_file_register (store : Store) (course_id filename : String) :
    storeGet (ingest_file store course_id filename) (docId course_id filename) =
      some { filename := filename, course_id := course_id, status := "indexed",
             mock_embedding := mockEmbedding, text_content := "", chunks := [] } :=
  storeGet_storeSet_self store _ _

/-- C5 (counterexample): the document id is NOT a unique key for distinct
`(course_id, filename)` pairs: `("a_b", "c")` and `("a", "b_c")` collide on
`"a_b_c"`, so ingestion under one pair can overwrite the other's document. -/
theorem C5_docId_collision_counterexample :
    docId "a_b" "c" = docId "a" "b_c" ∧
    (("a_b", "c") : String × String) ≠ ("a", "b_c") := by
  constructor
  · decide
  · decide

/-- C5 (amended): the document id is derived deterministically from
`(course_id, filename)` (it is a function of the pair), and it is a unique
key provided the course ids contain no underscore: two pairs with
underscore-free course ids that derive the same id are equal. -/
theorem docId_inj (c1 f1 c2 f2 : String)
    (h1 : '_' ∉ c1.data) (h2 : '_' ∉ c2.data)
    (heq : docId c1 f1 = docId c2 f2) : c1 = c2 ∧ f1 = f2 := by
  have hu : ("_" : String).data = ['_'] := rfl
  have hd : c1.data ++ '_' :: f1.data = c2.data ++ '_' :: f2.data := by
    have h := congrArg String.data heq
    simp only [docId, String.data_append, hu, List.append_assoc,
      List.singleton_append] at h
    exact h
  obtain ⟨hc, hf⟩ := append_sep_inj '_' c1.data c2.data f1.data f2.data h1 h2 hd
  exact ⟨String.eq_of_data_eq hc, String.eq_of_data_eq hf⟩

theorem docId_inj_witness :
    ('_' ∉ ("ca" : String).data) ∧
      (("ca" : String) = "ca" ∧ ("f.txt" : String) = "f.txt") :=
  ⟨by decide, docId_inj "ca" "f.txt" "ca" "f.txt" (by decide) (by decide) rfl⟩

/-- C8: for every text chunked with chunk_size=1000 and overlap=200, when
chunks i and i+1 are both full-length (1000 characters), the last 200
characters of chunk i equal the first 200 characters of chunk i+1. -/
theorem chunk_overlap (t : String) (i : Nat) (c1 c2 : String)
    (h1 : (chunk_text t)[i]? = some c1) (h2 : (chunk_text t)[i + 1]? = some c2)
    (hl1 : c1.length = 1000) (hl2 : c2.length = 1000) :
    c1.data.drop 800 = c2.data.take 200 := by
  rw [chunk_text_getElem] at h1 h2
  by_cases hc1 : 800 * i < t.length
  · rw [if_pos hc1] at h1
    by_cases hc2 : 800 * (i + 1) < t.length
    · rw [if_pos hc2] at h2
      obtain rfl := Option.some.inj h1
      obtain rfl := Option.some.inj h2
      show (List.take 1000 (List.drop (800 * i) t.data)).drop 800 =
        (List.take 1000 (List.drop (800 * (i + 1)) t.data)).take 200
      rw [List.drop_take, List.take_take, List.drop_drop]
      have harith : 800 * i + 800 = 800 * (i + 1) := by ring
      rw [harith]
      norm_num
    · rw [if_neg hc2] at h2
      exact absurd h2 (by simp)
  · rw [if_neg hc1] at h1
    exact absurd h1 (by simp)

set_option maxRecDepth 20000 in
theorem chunk_overlap_witness :
    (String.mk (List.replicate 1000 'a')).data.drop 800 =
      (String.mk (List.replicate 1000 'a')).data.take 200 :=
  chunk_overlap (String.mk (List.replicate 1800 'a')) 0
    (String.mk (List.replicate 1000 'a')) (String.mk (List.replicate 1000 'a'))
    (by decide) (by decide) (by decide) (by decide)

/-- C2: an invalid token short-circuits to the empty string regardless of
store and query; an empty query and a non-empty scope matching no document
also return the empty string (the embedding is a total function, so no
exception is possible in any of these cases). -/
theorem search_context_edge_cases {τ : Type} (validate : τ → Bool) (store : Store)
    (query : String) (token : τ) (scope : Option String) :
    (validate token = false → search_context validate store query token scope = "") ∧
    (query = "" → search_context validate store query token scope = "") ∧
    (∀ A : String, scope = some A → A ≠ "" →
      (∀ kv ∈ store, kv.2.course_id ≠ A) →
      search_context validate store query token scope = "") := by
  refine ⟨search_context_invalid validate store query token scope, ?_, ?_⟩
  · intro hq
    subst hq
    cases hb : validate token with
    | false => exact search_context_invalid _ _ _ _ _ hb
    | true =>
      rw [search_context_valid validate store "" token scope hb]
      have hterm : queryTerms "" = [] := rfl
      rw [hterm, scanResults_nil_terms]
      rfl
  · intro A hscope hA hall
    subst hscope
    cases hb : validate token with
    | false => exact search_context_invalid _ _ _ _ _ hb
    | true =>
      rw [search_context_valid validate store query token (some A) hb,
        scanResults_skip_all (queryTerms query) A hA store hall]
      rfl

theorem search_context_edge_cases_witness :
    search_context (fun b : Bool => b) [] "q" false none = "" ∧
    search_context (fun b : Bool => b) [] "" true none = "" ∧
    search_context (fun b : Bool => b)
        [(docId "b" "f",
          { filename := "f", course_id := "b", status := "indexed",
            mock_embedding := mockEmbedding, text_content := "",
            chunks := ["zz"] })]
        "zz" true (some "a") = "" :=
  ⟨(search_context_edge_cases (fun b : Bool => b) [] "q" false none).1 rfl,
   (search_context_edge_cases (fun b : Bool => b) [] "" true none).2.1 rfl,
   (search_context_edge_cases (fun b : Bool => b) _ "zz" true (some "a")).2.2
     "a" rfl (by decide) (by decide)⟩

/-- C6: with a valid token, every collected entry has a strictly positive
score equal to twice the sum over the (filtered, with fallback) query terms
of the non-overlapping case-insensitive occurrence counts of the term in
the chunk, and is formatted "From {filename}:\n{chunk}"; the returned
context is the top three entries of the stably sorted (score-descending)
entry list, joined by "\n\n---\n\n" — in particular it is the empty string
when no chunk scores above zero. -/
theorem search_context_scoring {τ : Type} (validate : τ → Bool) (store : Store)
    (query : String) (token : τ) (scope : Option String)
    (hv : validate token = true) :
    (∀ e ∈ scanResults (queryTerms query) scope store,
      0 < e.1 ∧ ∃ kv ∈ store, ∃ chunk ∈ kv.2.chunks,
        e.1 = 2 * ((queryTerms query).map
          (fun t => countOccs t.data (chunk.data.map Char.toLower))).sum ∧
        e.2 = "From " ++ kv.2.filename ++ ":\n" ++ chunk) ∧
    List.Sorted scoreGE (sortResults (scanResults (queryTerms query) scope store)) ∧
    (sortResults (scanResults (queryTerms query) scope store)).Perm
      (scanResults (queryTerms query) scope store) ∧
    search_context validate store query token scope =
      String.intercalate "\n\n---\n\n"
        (((sortResults (scanResults (queryTerms query) scope store)).take 3).map
          Prod.snd) := by
  refine ⟨?_, ?_, ?_, search_context_valid validate store query token scope hv⟩
  · intro e he
    obtain ⟨kv, hkv, hde⟩ := mem_scanResults he
    obtain ⟨hpos, chunk, hchunk, hscore, htext⟩ := mem_docEntries hde
    exact ⟨hpos, kv, hkv, chunk, hchunk, by rw [hscore, chunkScore_eq], htext⟩
  · exact List.sorted_insertionSort scoreGE _
  · exact List.perm_insertionSort scoreGE _

theorem search_context_scoring_witness :
    (∀ e ∈ scanResults (queryTerms "apple") none
        [(docId "c1" "n",
          { filename := "n", course_id := "c1", status := "indexed",
            mock_embedding := mockEmbedding, text_content := "",
            chunks := ["apple pie"] })],
      0 < e.1 ∧ ∃ kv ∈ [(docId "c1" "n",
          ({ filename := "n", course_id := "c1", status := "indexed",
             mock_embedding := mockEmbedding, text_content := "",
             chunks := ["apple pie"] } : Doc))], ∃ chunk ∈ kv.2.chunks,
        e.1 = 2 * ((queryTerms "apple").map
          (fun t => countOccs t.data (chunk.data.map Char.toLower))).sum ∧
        e.2 = "From " ++ kv.2.filename ++ ":\n" ++ chunk) ∧
    List.Sorted scoreGE (sortResults (scanResults (queryTerms "apple") none
      [(docId "c1" "n",
        { filename := "n", course_id := "c1", status := "indexed",
          mock_embedding := mockEmbedding, text_content := "",
          chunks := ["apple pie"] })])) ∧
    (sortResults (scanResults (queryTerms "apple") none
      [(docId "c1" "n",
        { filename := "n", course_id := "c1", status := "indexed",
          mock_embedding := mockEmbedding, text_content := "",
          chunks := ["apple pie"] })])).Perm
      (scanResults (queryTerms "apple") none
        [(docId "c1" "n",
          { filename := "n", course_id := "c1", status := "indexed",
            mock_embedding := mockEmbedding, text_content := "",
            chunks := ["apple pie"] })]) ∧
    search_context (fun b : Bool => b)
        [(docId "c1" "n",
          { filename := "n", course_id := "c1", status := "indexed",
            mock_embedding := mockEmbedding, text_content := "",
            chunks := ["apple pie"] })] "apple" true none =
      String.intercalate "\n\n---\n\n"
        (((sortResults (scanResults (queryTerms "apple") none
          [(docId "c1" "n",
            { filename := "n", course_id := "c1", status := "indexed",
              mock_embedding := mockEmbedding, text_content := "",
              chunks := ["apple pie"] })])).take 3).map Prod.snd) :=
  search_context_scoring (fun b : Bool => b)
    [(docId "c1" "n",
      { filename := "n", course_id := "c1", status := "indexed",
        mock_embedding := mockEmbedding, text_content := "",
        chunks := ["apple pie"] })] "apple" true none rfl

/-- C7: with a valid or invalid token alike, a query scoped to a non-empty
course A returns the same context over the full store as over the store
restricted to course A — no chunk of a different course can appear; and
with no scope, the course ids play no role at all (renaming every course id
leaves the result unchanged), so documents of every course are eligible. -/
theorem search_context_scope_isolation {τ : Type} (validate : τ → Bool)
    (store : Store) (query : String) (token : τ) (A : String) (hA : A ≠ "") :
    search_context validate store query token (some A) =
      search_context validate (store.filter (fun kv => kv.2.course_id == A))
        query token (some A) ∧
    (∀ f : String → String,
      search_context validate
          (store.map (fun kv => (kv.1, { kv.2 with course_id := f kv.2.course_id })))
          query token none =
        search_context validate store query token none) := by
  constructor
  · cases hb : validate token with
    | false =>
      rw [search_context_invalid _ _ _ _ _ hb, search_context_invalid _ _ _ _ _ hb]
    | true =>
      rw [search_context_valid _ _ _ _ _ hb, search_context_valid _ _ _ _ _ hb,
        scanResults_filter_course (queryTerms query) A hA store]
  · intro f
    cases hb : validate token with
    | false =>
      rw [search_context_invalid _ _ _ _ _ hb, search_context_invalid _ _ _ _ _ hb]
    | true =>
      rw [search_context_valid _ _ _ _ _ hb, search_context_valid _ _ _ _ _ hb,
        scanResults_course_map (queryTerms query) f store]

theorem search_context_scope_isolation_witness :
    search_context (fun b : Bool => b)
        [(docId "c1" "n",
          { filename := "n", course_id := "c1", status := "indexed",
            mock_embedding := mockEmbedding, text_content := "",
            chunks := ["apple pie"] }),
         (docId "c2" "m",
          { filename := "m", course_id := "c2", status := "indexed",
            mock_embedding := mockEmbedding, text_content := "",
            chunks := ["apple apple apple"] })] "apple" true (some "c1") =
      search_context (fun b : Bool => b)
        ([(docId "c1" "n",
           ({ filename := "n", course_id := "c1", status := "indexed",
              mock_embedding := mockEmbedding, text_content := "",
              chunks := ["apple pie"] } : Doc)),
          (docId "c2" "m",
           ({ filename := "m", course_id := "c2", status := "indexed",
              mock_embedding := mockEmbedding, text_content := "",
              chunks := ["apple apple apple"] } : Doc))].filter
          (fun kv => kv.2.course_id == "c1")) "apple" true (some "c1") ∧
    (∀ f : String → String,
      search_context (fun b : Bool => b)
          ([(docId "c1" "n",
             ({ filename := "n", course_id := "c1", status := "indexed",
                mock_embedding := mockEmbedding, text_content := "",
                chunks := ["apple pie"] } : Doc)),
            (docId "c2" "m",
             ({ filename := "m", course_id := "c2", status := "indexed",
                mock_embedding := mockEmbedding, text_content := "",
                chunks := ["apple apple apple"] } : Doc))].map
            (fun kv => (kv.1, { kv.2 with course_id := f kv.2.course_id })))
          "apple" true none =
        search_context (fun b : Bool => b)
          [(docId "c1" "n",
            { filename := "n", course_id := "c1", status := "indexed",
              mock_embedding := mockEmbedding, text_content := "",
              chunks := ["apple pie"] }),
           (docId "c2" "m",
            { filename := "m", course_id := "c2", status := "indexed",
              mock_embedding := mockEmbedding, text_content := "",
              chunks := ["apple apple apple"] })] "apple" true none) :=
  search_context_scope_isolation (fun b : Bool => b)
    [(docId "c1" "n",
      { filename := "n", course_id := "c1", status := "indexed",
        mock_embedding := mockEmbedding, text_content := "",
        chunks := ["apple pie"] }),
     (docId "c2" "m",
      { filename := "m", course_id := "c2", status := "indexed",
        mock_embedding := mockEmbedding, text_content := "",
        chunks := ["apple apple apple"] })] "apple" true "c1" (by decide)

/-- C9: saving the store (the JSON snapshot `_save_store` writes) and
loading it back (`_load_store`) yields a store deep-equal to the original,
every field preserved, including documents with empty chunk lists and empty
raw text. -/
theorem save_load_roundtrip (store : Store) :
    load_store (save_store store) = some store :=
  decodeEntries_save store

/-- C10: a query scoped to the empty string behaves exactly like an
unscoped query — the Python truthiness test `if course_id and ...` disables
the course filter for the empty string rather than matching zero
documents. -/
theorem search_context_empty_scope {τ : Type} (validate : τ → Bool)
    (store : Store) (query : String) (token : τ) :
    search_context validate store query token (some "") =
      search_context validate store query token none := by
  cases hb : validate token with
  | false =>
    rw [search_context_invalid _ _ _ _ _ hb, search_context_invalid _ _ _ _ _ hb]
  | true =>
    rw [search_context_valid _ _ _ _ _ hb, search_context_valid _ _ _ _ _ hb,
      scanResults_empty_scope]
